import Mathlib

/-!
Verification of the request-serving core of the fixed-schema MCP server.

The definitions below are a shallow embedding of the Python sources:

* `core/exceptions.py`, `schema/exceptions.py` — the exception taxonomy,
  embedded as the inductive type `Exc` (one constructor per concrete
  exception class that the core raises or classifies).
* `core/error_handler.py` — `classifyError`, `shouldRetry`, `handleError`.
* `core/server.py` (`_process_request_with_retry`) — `retryLoopAux` /
  `processRequestWithRetry`.
* `core/request_processor.py` — the exception-translation layers of
  `process_request` (`processRequestWrap`) and `_handle_generate_response`
  (`handleGenerateResponseExc`).
* `core/request_queue.py` — `RQState` together with `checkRateLimit`,
  `RQState.enqueue`, `RQState.processOne`, `RQState.updateWaitTimeMetrics`
  and `RQState.getMetrics`.
* `core/protocol.py` — the Content-Length framing (`writeMessage`,
  `readMessage`) over byte streams, bytes modelled as `List Nat`.
* `model/connection_pool.py` — `ConnectionPool` with `startPool`,
  `acquireStep`, `releasePool`, `markUnhealthyPool`, `performMaintenance`.

Wall-clock instants and float quantities are modelled as exact rationals;
the `time.time()` reads of the Python code become explicit `now : ℚ`
arguments, and the pluggable collaborators (model manager, schema manager,
connection factory, health probe) become explicit oracle arguments, so
every function is a pure, executable Lean definition.
-/

/-- Exception taxonomy of the server core.  Mirrors the concrete classes of
`core/exceptions.py` (`RequestValidationError`, `RequestProcessingError`,
`ModelError`, `ConfigurationError`), `schema/exceptions.py`
(`SchemaNotFoundError`, `SchemaValidationError` with its `errors` payload)
and `core/request_queue.py` (`QueueFullError`); `otherError` stands for any
unrelated `Exception` subclass.  The string argument is the message that
Python's `str(e)` returns. -/
inductive Exc where
  | requestValidationError (msg : String)
  | requestProcessingError (msg : String)
  | queueFullError (msg : String)
  | schemaNotFoundError (msg : String)
  | schemaValidationError (msg : String) (errors : Option (List String))
  | modelError (msg : String)
  | configurationError (msg : String)
  | otherError (msg : String)
  deriving Repr, DecidableEq

/-- Message carried by an exception: Python's `str(e)`.  Every class in the
embedded taxonomy stores its message verbatim (for `SchemaValidationError`,
`__init__` forwards `message` to `super().__init__`). -/
def excMessage : Exc → String
  | .requestValidationError m => m
  | .requestProcessingError m => m
  | .queueFullError m => m
  | .schemaNotFoundError m => m
  | .schemaValidationError m _ => m
  | .modelError m => m
  | .configurationError m => m
  | .otherError m => m

/-- Result of `ErrorHandler._classify_error`: the `(category, code, message,
details)` tuple.  `details` is `some errors` exactly when the source builds
the dict `{"validation_errors": error.errors}`. -/
structure Classification where
  category : String
  code : String
  message : String
  details : Option (Option (List String))
  deriving Repr, DecidableEq

/-- `ErrorHandler._classify_error` (error_handler.py lines 125-164): an
ordered chain of `isinstance` checks; anything unrecognized (including
`QueueFullError`, which is not in the chain) defaults to
`("internal", "internal_error")`. -/
def classifyError : Exc → Classification
  | .requestValidationError m => ⟨"validation", "validation_error", m, none⟩
  | .requestProcessingError m => ⟨"processing", "processing_error", m, none⟩
  | .modelError m => ⟨"model", "model_error", m, none⟩
  | .schemaNotFoundError m => ⟨"schema", "schema_not_found", m, none⟩
  | .schemaValidationError m errs => ⟨"schema", "schema_validation_error", m, some errs⟩
  | .configurationError m => ⟨"configuration", "configuration_error", m, none⟩
  | .queueFullError m => ⟨"internal", "internal_error", m, none⟩
  | .otherError m => ⟨"internal", "internal_error", m, none⟩

/-- Membership in `ErrorHandler.RETRYABLE_ERRORS = {ModelError}`: the
`isinstance(error, error_type)` test of `should_retry`.  Only the core
`ModelError` class (and its subclasses, of which the core defines none) is
retryable. -/
def isRetryableError : Exc → Bool
  | .modelError _ => true
  | _ => false

/-- `ErrorHandler.should_retry` (error_handler.py lines 105-123): true only
when the error's type is in the retryable set and `attempt < max_retries`. -/
def shouldRetry (maxRetries : Nat) (e : Exc) (attempt : Nat) : Bool :=
  if isRetryableError e then decide (attempt < maxRetries) else false

/-- Inner `error` object of the canonical error envelope built by
`ErrorHandler.handle_error`.  Optional fields model dict-key presence. -/
structure ErrorBody where
  code : String
  message : String
  details : Option (Option (List String))
  requestId : Option String
  deriving Repr, DecidableEq

/-- Canonical error envelope `{status: "error", error: {...}}`. -/
structure ErrorResponse where
  status : String
  error : ErrorBody
  deriving Repr, DecidableEq

/-- `ErrorHandler.handle_error` (error_handler.py lines 64-103).  The
`details` dict is attached under `if details:`, which is true exactly when
classification produced one (the dict `{"validation_errors": ...}` is
non-empty, hence truthy, even when `errors` is `None`); `request_id` is
attached under `if request_id:`, Python truthiness, so an empty string is
dropped like `None`. -/
def handleError (e : Exc) (requestId : Option String) : ErrorResponse :=
  let c := classifyError e
  { status := "error"
    error :=
      { code := c.code
        message := c.message
        details := c.details
        requestId :=
          match requestId with
          | some r => if r = "" then none else some r
          | none => none } }

/-- Backoff base delay of `MCPServer._process_request_with_retry`: the
`0.1` in `asyncio.sleep(0.1 * (2 ** (attempt - 1)))`. -/
def retryBaseDelay : ℚ := 1 / 10

/-- Backoff slept before retrying after a failed `attempt`:
`base_delay * 2 ** (attempt - 1)` (server.py line 311). -/
def retrySleep (attempt : Nat) : ℚ := retryBaseDelay * 2 ^ (attempt - 1)

/-- One run of the `while True` loop of
`MCPServer._process_request_with_retry` (server.py lines 295-315) starting
from counter value `attempt`.  `results a` is the outcome of the `a`-th
call to `process_request`.  Returns the final outcome, the number of
attempts performed, and the list of backoff delays slept, in order.  The
source's dedicated `except QueueFullError: raise` arm coincides with the
generic arm here because `shouldRetry` is false on `queueFullError`. -/
def retryLoopAux (maxRetries : Nat) (results : Nat → Except Exc String)
    (attempt : Nat) : Except Exc String × Nat × List ℚ :=
  let a := attempt + 1
  match results a with
  | .ok r => (.ok r, a, [])
  | .error e =>
    if h : shouldRetry maxRetries e a = true ∧ a < maxRetries then
      let rest := retryLoopAux maxRetries results a
      (rest.1, rest.2.1, retrySleep a :: rest.2.2)
    else (.error e, a, [])
termination_by maxRetries - attempt
decreasing_by omega

/-- `MCPServer._process_request_with_retry`: the loop starts with
`attempt = 0` and `max_attempts = self._error_handler._max_retries`. -/
def processRequestWithRetry (maxRetries : Nat) (results : Nat → Except Exc String) :
    Except Exc String × Nat × List ℚ :=
  retryLoopAux maxRetries results 0

/-- Exception translation of `RequestProcessor._handle_generate_response`
(request_processor.py lines 346-352): `SchemaNotFoundError` is re-raised
unchanged, any other exception escaping the handler body is wrapped as
`RequestProcessingError(f"Error handling generate_response request: {e}")`.
`body` is the outcome of the handler body (schema lookup, model call,
response processing). -/
def handleGenerateResponseExc {α : Type} (body : Except Exc α) : Except Exc α :=
  match body with
  | .ok r => .ok r
  | .error (.schemaNotFoundError m) => .error (.schemaNotFoundError m)
  | .error e =>
    .error (.requestProcessingError
      ("Error handling generate_response request: " ++ excMessage e))

/-- Exception translation of `RequestProcessor.process_request`
(request_processor.py lines 177-187): `RequestValidationError` and
`QueueFullError` are re-raised unchanged, every other exception reaching
the outer `try` is wrapped as
`RequestProcessingError(f"Error processing request: {e}")`.  `body` is the
outcome of the whole `try` body (validation, routing, queueing, handler). -/
def processRequestWrap {α : Type} (body : Except Exc α) : Except Exc α :=
  match body with
  | .ok r => .ok r
  | .error (.requestValidationError m) => .error (.requestValidationError m)
  | .error (.queueFullError m) => .error (.queueFullError m)
  | .error e =>
    .error (.requestProcessingError ("Error processing request: " ++ excMessage e))

/-- An entry of the admission queue: the tuple
`(priority, enqueue_time, request_data, result_future, request_id)` that
`RequestQueue.enqueue` puts into the `asyncio.PriorityQueue`
(request_queue.py line 125).  The result future carries no information of
its own and is omitted; `enqueueTime` is the `time.time()` wall-clock read
taken at enqueue. -/
structure QItem where
  priority : Int
  enqueueTime : ℚ
  requestData : String
  requestId : Option String
  deriving Repr, DecidableEq

/-- Heap ordering of the `asyncio.PriorityQueue`: tuples compare
lexicographically, so `(priority, enqueue_time)` is the key — lower
priority value first, ties by the wall-clock enqueue timestamp.  (On an
exact `(priority, enqueue_time)` tie Python would go on to compare the
`request_data` dicts, which raises `TypeError`; no claim below depends on
that case, and the sorted-list model keeps exact ties in insertion
order.) -/
def keyLE (a b : QItem) : Bool :=
  a.priority < b.priority || (a.priority == b.priority && a.enqueueTime ≤ b.enqueueTime)

/-- Insertion into the heap, modelled as insertion into a list sorted by
`keyLE`; the new item goes after existing items with a less-or-equal key. -/
def queueInsert (x : QItem) : List QItem → List QItem
  | [] => [x]
  | y :: ys => if keyLE y x then y :: queueInsert x ys else x :: y :: ys

/-- State of `RequestQueue` (request_queue.py lines 43-61).  `queue` models
the `asyncio.PriorityQueue` as a list sorted by `keyLE`;
`minQueueWaitTime = none` models the `float('inf')` initial sentinel;
other fields are verbatim counterparts of the instance attributes. -/
structure RQState where
  rateLimit : ℚ
  ratePeriod : ℚ
  burstLimit : Option Nat
  maxQueueSize : Nat
  queue : List QItem
  lastRequestTime : ℚ
  requestCount : Nat
  requestTimes : List ℚ
  processedCount : Nat
  rejectedCount : Nat
  queueWaitTimes : List ℚ
  maxQueueWaitTime : ℚ
  minQueueWaitTime : Option ℚ
  totalQueueWaitTime : ℚ
  deriving Repr, DecidableEq

/-- `RequestQueue.__init__`: fresh state for the given parameters. -/
def RQState.init (rateLimit ratePeriod : ℚ) (burstLimit : Option Nat)
    (maxQueueSize : Nat) : RQState :=
  { rateLimit := rateLimit
    ratePeriod := ratePeriod
    burstLimit := burstLimit
    maxQueueSize := maxQueueSize
    queue := []
    lastRequestTime := 0
    requestCount := 0
    requestTimes := []
    processedCount := 0
    rejectedCount := 0
    queueWaitTimes := []
    maxQueueWaitTime := 0
    minQueueWaitTime := none
    totalQueueWaitTime := 0 }

/-- `RequestQueue._check_rate_limit` (request_queue.py lines 206-226): drop
recorded request times at or before `now - rate_period` (the filter keeps
`t > cutoff`), then admit only if the remaining count is below `rate_limit`
and, when a burst limit is set, below `burst_limit`.  The pruned list is
written back to the state (the prune happens even when the check denies). -/
def checkRateLimit (st : RQState) (now : ℚ) : Bool × RQState :=
  let times := st.requestTimes.filter (fun t => now - st.ratePeriod < t)
  let st1 := { st with requestTimes := times }
  if st.rateLimit ≤ (times.length : ℚ) then (false, st1)
  else
    match st.burstLimit with
    | some b => if b ≤ times.length then (false, st1) else (true, st1)
    | none => (true, st1)

/-- Outcome of `RequestQueue.enqueue` up to the point where the caller
starts awaiting the result future: either the item was placed in the
priority queue, or `QueueFullError(msg)` was raised. -/
inductive EnqueueOutcome where
  | accepted
  | queueFull (msg : String)
  deriving Repr, DecidableEq

/-- Admission part of `RequestQueue.enqueue` (request_queue.py lines
110-126): reject with `QueueFullError` when `qsize() >= max_queue_size`
(before any state change), then reject with the rate-limit variant when
`_check_rate_limit()` denies, otherwise put
`(priority, enqueue_time, ...)` into the priority queue with
`enqueue_time = time.time() = now`. -/
def RQState.enqueue (st : RQState) (requestData : String) (priority : Int)
    (requestId : Option String) (now : ℚ) : EnqueueOutcome × RQState :=
  if st.maxQueueSize ≤ st.queue.length then
    (.queueFull ("Request queue is full (" ++ toString st.queue.length ++ " items)"), st)
  else
    match checkRateLimit st now with
    | (false, st1) => (.queueFull "Rate limit exceeded", st1)
    | (true, st1) =>
      (.accepted,
        { st1 with queue := queueInsert ⟨priority, now, requestData, requestId⟩ st1.queue })

/-- One iteration of `RequestQueue._process_queue` (request_queue.py lines
171-197) on a non-empty queue: pop the minimal item, record the processing
wall-clock time in `_request_times`, bump the counters, and resolve the
item's future (the resolved payload is the returned item).  The `except`
arm around `set_result` is unreachable for a pending future and is not
modelled. -/
def RQState.processOne (st : RQState) (now : ℚ) : Option (QItem × RQState) :=
  match st.queue with
  | [] => none
  | x :: rest =>
    some (x,
      { st with
          queue := rest
          requestCount := st.requestCount + 1
          requestTimes := st.requestTimes ++ [now]
          lastRequestTime := now
          processedCount := st.processedCount + 1 })

/-- `RequestQueue._update_wait_time_metrics` (request_queue.py lines
228-247): append the sample, maintain the running total and the min/max,
and cap the rolling window at 1000 samples by evicting the oldest
(subtracting it from the total). -/
def RQState.updateWaitTimeMetrics (st : RQState) (waitTime : ℚ) : RQState :=
  let waits := st.queueWaitTimes ++ [waitTime]
  let total := st.totalQueueWaitTime + waitTime
  let maxW := if st.maxQueueWaitTime < waitTime then waitTime else st.maxQueueWaitTime
  let minW :=
    match st.minQueueWaitTime with
    | none => some waitTime
    | some m => if waitTime < m then some waitTime else some m
  let trimmed :=
    if 1000 < waits.length then
      match waits with
      | [] => ([], total)
      | oldest :: rest => (rest, total - oldest)
    else (waits, total)
  { st with
      queueWaitTimes := trimmed.1
      totalQueueWaitTime := trimmed.2
      maxQueueWaitTime := maxW
      minQueueWaitTime := minW }

/-- Metrics dictionary returned by `RequestQueue.get_metrics`. -/
structure QueueMetrics where
  queueSize : Nat
  processedCount : Nat
  rejectedCount : Nat
  avgWaitTime : ℚ
  maxWaitTime : ℚ
  minWaitTime : ℚ
  rateLimit : ℚ
  ratePeriod : ℚ
  burstLimit : Option Nat
  maxQueueSize : Nat
  deriving Repr, DecidableEq

/-- `RequestQueue.get_metrics` (request_queue.py lines 145-163):
`avg_wait_time` divides the running total by `max(1, len(samples))`, and
`min_wait_time` reports `0` while the sentinel still equals
`float('inf')` (modelled as `none`). -/
def RQState.getMetrics (st : RQState) : QueueMetrics :=
  { queueSize := st.queue.length
    processedCount := st.processedCount
    rejectedCount := st.rejectedCount
    avgWaitTime := st.totalQueueWaitTime / (max 1 st.queueWaitTimes.length : ℚ)
    maxWaitTime := st.maxQueueWaitTime
    minWaitTime :=
      match st.minQueueWaitTime with
      | none => 0
      | some m => m
    rateLimit := st.rateLimit
    ratePeriod := st.ratePeriod
    burstLimit := st.burstLimit
    maxQueueSize := st.maxQueueSize }

/-- Modelled from the spec: the `RateLimiterState` token bucket that
section 3 and section 4.2 of the specification describe for the admission
queue — `{tokens, capacity, refill_rate, last_refill}` with tokens
accumulating continuously at `rate_limit / rate_period` up to the
capacity, refill computed lazily from elapsed wall-clock time at each
check, and one token consumed by each accepted enqueue.  No such structure
exists in `core/request_queue.py`; this definition exists solely to
compare the spec's policy with the code's `_check_rate_limit`. -/
structure TokenBucketState where
  tokens : ℚ
  capacity : ℚ
  refillRate : ℚ
  lastRefill : ℚ
  deriving Repr, DecidableEq

/-- Modelled from the spec: initial token bucket for parameters
`rate_limit`, `rate_period`, `burst_limit` — capacity `burst_limit` (or
`rate_limit` if unset), starting full. -/
def tokenBucketInit (rateLimit ratePeriod : ℚ) (burstLimit : Option Nat)
    (start : ℚ) : TokenBucketState :=
  let capacity :=
    match burstLimit with
    | some b => (b : ℚ)
    | none => rateLimit
  { tokens := capacity
    capacity := capacity
    refillRate := rateLimit / ratePeriod
    lastRefill := start }

/-- Modelled from the spec: one admission check of the token bucket —
lazily refill from the elapsed wall-clock time, cap at the capacity, and
consume one token if at least one is available. -/
def tokenBucketCheck (st : TokenBucketState) (now : ℚ) : Bool × TokenBucketState :=
  let tokens := min st.capacity (st.tokens + (now - st.lastRefill) * st.refillRate)
  if 1 ≤ tokens then (true, { st with tokens := tokens - 1, lastRefill := now })
  else (false, { st with tokens := tokens, lastRefill := now })

/-- Python `str.strip` whitespace test, restricted to the ASCII whitespace
bytes that can occur in framing headers (tab, LF, VT, FF, CR, space). -/
def isPySpace (b : Nat) : Bool :=
  b = 9 || b = 10 || b = 11 || b = 12 || b = 13 || b = 32

/-- `header_line.decode('utf-8').strip()` on an ASCII line, at the byte
level: drop whitespace from both ends. -/
def byteStrip (l : List Nat) : List Nat :=
  ((l.dropWhile isPySpace).reverse.dropWhile isPySpace).reverse

/-- `asyncio.StreamReader.readline`: consume bytes up to and including the
first LF; at end of stream return whatever was read (possibly nothing).
Returns the line and the remaining stream. -/
def readLine : List Nat → List Nat × List Nat
  | [] => ([], [])
  | b :: rest =>
    if b = 10 then ([10], rest)
    else
      let r := readLine rest
      (b :: r.1, r.2)

/-- `asyncio.StreamReader.readexactly n`: `some` of the first `n` bytes and
the remainder, or `none` (an `IncompleteReadError`) when the stream ends
short. -/
def readExactly (n : Nat) (s : List Nat) : Option (List Nat × List Nat) :=
  if n ≤ s.length then some (s.take n, s.drop n) else none

/-- UTF-8 bytes of the literal `"Content-Length: "` (16 bytes), the header
shape `_read_message` requires and `_write_message` emits. -/
def clHeaderBytes : List Nat :=
  [67, 111, 110, 116, 101, 110, 116, 45, 76, 101, 110, 103, 116, 104, 58, 32]

/-- Decimal digit bytes of `n`, as Python's `str(n)` produces for a
non-negative length: most significant first, `"0"` for zero. -/
def natRepr (n : Nat) : List Nat :=
  if n = 0 then [48] else ((Nat.digits 10 n).map (· + 48)).reverse

/-- Python `int(s)` on the byte-level slice `header[16:]`, for the digit
strings the framer cares about: `some n` when the slice is a non-empty
run of ASCII digits, `none` otherwise (a `ValueError` in the source, which
the enclosing `except` turns into `MCPProtocolError`; a negative length
would likewise end in an exception, at `readexactly`). -/
def parseNatAux : List Nat → Nat → Option Nat
  | [], acc => some acc
  | b :: rest, acc =>
    if 48 ≤ b ∧ b ≤ 57 then parseNatAux rest (acc * 10 + (b - 48)) else none

/-- Entry point of the digit parser: empty input is a `ValueError`. -/
def parseNatBytes (l : List Nat) : Option Nat :=
  if l.isEmpty then none else parseNatAux l 0

/-- Result of `MCPProtocolHandler._read_message`: `eof` models the `None`
return (no header line, or an `IncompleteReadError` while reading),
`message` a successfully framed payload, `protocolError` an
`MCPProtocolError` (the source re-wraps protocol errors raised inside the
`try` in a second `MCPProtocolError`; only the type and the triggering
condition are tracked here). -/
inductive ReadOutcome where
  | eof
  | message (content : List Nat)
  | protocolError (reason : String)
  deriving Repr, DecidableEq

/-- `MCPProtocolHandler._read_message` (protocol.py lines 163-206): read a
header line (empty read = end of input), strip it, require the
`Content-Length: ` shape, parse the length, require a blank separator
line, then read exactly that many payload bytes (a short read is an
`IncompleteReadError`, returned as `None`, i.e. stream closure).  Returns
the outcome and the unconsumed remainder of the stream.  The source
decodes the header as UTF-8 before matching; on the ASCII inputs the
framer emits the byte-level comparison is identical, and a header that is
not valid UTF-8 fails there as it fails here, with `MCPProtocolError`. -/
def readMessage (stream : List Nat) : ReadOutcome × List Nat :=
  let hl := readLine stream
  if hl.1 = [] then (.eof, hl.2)
  else
    let header := byteStrip hl.1
    if header.take 16 = clHeaderBytes then
      match parseNatBytes (header.drop 16) with
      | none => (.protocolError "Error reading message", hl.2)
      | some n =>
        let sep := readLine hl.2
        if byteStrip sep.1 = [] then
          match readExactly n sep.2 with
          | some (content, rest) => (.message content, rest)
          | none => (.eof, sep.2)
        else (.protocolError "Expected empty line after header", sep.2)
    else (.protocolError "Invalid header", hl.2)

/-- `MCPProtocolHandler._write_message` (protocol.py lines 292-316): emit
`f"Content-Length: {len(content)}\r\n\r\n"` followed by the UTF-8 payload
bytes.  The payload is modelled as its byte sequence (`message.encode`). -/
def writeMessage (content : List Nat) : List Nat :=
  clHeaderBytes ++ natRepr content.length ++ [13, 10, 13, 10] ++ content

/-- `ConnectionStatus` enum of connection_pool.py. -/
inductive ConnectionStatus where
  | idle
  | busy
  | unhealthy
  | closed
  deriving Repr, DecidableEq

/-- `PooledConnection` dataclass (connection_pool.py lines 35-53); the
wrapped connection object is identified by a `Nat`. -/
structure PooledConnection where
  connection : Nat
  status : ConnectionStatus
  createdAt : ℚ
  lastUsedAt : ℚ
  errorCount : Nat
  healthCheckAt : ℚ
  deriving Repr, DecidableEq

/-- State and configuration of `ConnectionPool` (connection_pool.py lines
65-101).  The `create_connection`, `health_check` and `close_connection`
callables and the `time.time()` reads become explicit arguments of the
operations. -/
structure ConnectionPool where
  connections : List PooledConnection
  minSize : Nat
  maxSize : Nat
  maxIdleTime : ℚ
  healthCheckInterval : ℚ
  maxErrors : Nat
  deriving Repr, DecidableEq

/-- Fresh pooled connection: every creation site in the source builds the
dataclass with all timestamps set to the current time and a zero error
count; `acquire` creates it Busy, `start` and maintenance create it
Idle. -/
def mkPooledConnection (c : Nat) (status : ConnectionStatus) (now : ℚ) :
    PooledConnection :=
  { connection := c
    status := status
    createdAt := now
    lastUsedAt := now
    errorCount := 0
    healthCheckAt := now }

/-- `ConnectionPool.start` (connection_pool.py lines 103-133): create
`min_size` connections eagerly; each element of `creations` is the result
of one `create_connection()` call (`none` = the call raised, which is
logged and skipped). -/
def startPool (p : ConnectionPool) (creations : List (Option Nat)) (now : ℚ) :
    ConnectionPool :=
  { p with
      connections :=
        p.connections ++ (creations.filterMap id).map (fun c => mkPooledConnection c .idle now) }

/-- First phase of `ConnectionPool.acquire`: the scan `for pooled_conn in
self._connections: if status == IDLE` (lines 193-197) — mark the first
idle connection Busy, stamp `last_used_at`, and hand it out. -/
def acquireFromIdle (conns : List PooledConnection) (now : ℚ) :
    Option (Nat × List PooledConnection) :=
  match conns with
  | [] => none
  | pc :: rest =>
    if pc.status = .idle then
      some (pc.connection, { pc with status := .busy, lastUsedAt := now } :: rest)
    else
      match acquireFromIdle rest now with
      | some (c, rest1) => some (c, pc :: rest1)
      | none => none

/-- Result of one pass of the `acquire` loop body. -/
inductive AcquireResult where
  | acquired (c : Nat)
  | connectionError
  | wait
  deriving Repr, DecidableEq

/-- One pass of the `while True` body of `ConnectionPool.acquire`
(connection_pool.py lines 191-221), i.e. one execution of the
`async with self._lock` critical section: prefer an idle connection, else
create a new Busy one when below `max_size` (`create` is the outcome of
the `create_connection()` call, `none` = it raised, surfacing as
`ModelConnectionError`), else report that the caller must wait and poll
again.  The enclosing timeout loop (sleep 0.1 and retry, raising
`ModelTimeoutError` once `timeout` elapses) repeats this step without
touching the pool. -/
def acquireStep (p : ConnectionPool) (now : ℚ) (create : Option Nat) :
    AcquireResult × ConnectionPool :=
  match acquireFromIdle p.connections now with
  | some (c, conns) => (.acquired c, { p with connections := conns })
  | none =>
    if p.connections.length < p.maxSize then
      match create with
      | some c =>
        (.acquired c,
          { p with connections := p.connections ++ [mkPooledConnection c .busy now] })
      | none => (.connectionError, p)
    else (.wait, p)

/-- List part of `ConnectionPool.release` (connection_pool.py lines
223-239): mark the first entry wrapping `c` Idle and stamp
`last_used_at`; when no entry matches, the scan falls through and the
list is untouched (only a warning is logged). -/
def releaseConns (conns : List PooledConnection) (c : Nat) (now : ℚ) :
    List PooledConnection :=
  match conns with
  | [] => []
  | pc :: rest =>
    if pc.connection = c then { pc with status := .idle, lastUsedAt := now } :: rest
    else pc :: releaseConns rest c now

/-- `ConnectionPool.release`. -/
def releasePool (p : ConnectionPool) (c : Nat) (now : ℚ) : ConnectionPool :=
  { p with connections := releaseConns p.connections c now }

/-- `ConnectionPool.mark_unhealthy` (connection_pool.py lines 241-254):
mark the first entry wrapping `c` Unhealthy and bump its error count. -/
def markUnhealthyConns (conns : List PooledConnection) (c : Nat) :
    List PooledConnection :=
  match conns with
  | [] => []
  | pc :: rest =>
    if pc.connection = c then
      { pc with status := .unhealthy, errorCount := pc.errorCount + 1 } :: rest
    else pc :: markUnhealthyConns rest c

/-- `ConnectionPool.mark_unhealthy`. -/
def markUnhealthyPool (p : ConnectionPool) (c : Nat) : ConnectionPool :=
  { p with connections := markUnhealthyConns p.connections c }

/-- Identification phase of `ConnectionPool._perform_maintenance`
(connection_pool.py lines 281-309) for one connection: returns the
(possibly mutated) entry and whether it was appended to
`connections_to_close`.  `origLen` is `len(self._connections)`, which the
source reads while iterating, before any removal.  `health c` is the
outcome of `health_check(c)`: `some b` = the probe returned `b`, `none` =
the probe raised (error counter bumped; eviction forced at `max_errors`,
and `health_check_at` not updated on that path, as in the source). -/
def maintFlag (p : ConnectionPool) (now : ℚ) (health : Nat → Option Bool)
    (origLen : Nat) (pc : PooledConnection) : PooledConnection × Bool :=
  if pc.status = .idle ∧ p.maxIdleTime < now - pc.lastUsedAt ∧ p.minSize < origLen then
    (pc, true)
  else if pc.status = .unhealthy then (pc, true)
  else if pc.status = .idle ∧ p.healthCheckInterval < now - pc.healthCheckAt then
    match health pc.connection with
    | some true => ({ pc with healthCheckAt := now }, false)
    | some false => ({ pc with healthCheckAt := now, status := .unhealthy }, true)
    | none =>
      if p.maxErrors ≤ pc.errorCount + 1 then
        ({ pc with errorCount := pc.errorCount + 1, status := .unhealthy }, true)
      else ({ pc with errorCount := pc.errorCount + 1 }, false)
  else (pc, false)

/-- `ConnectionPool._perform_maintenance` (connection_pool.py lines
275-334): flag connections to close, close and remove the flagged ones
(`closeOk c = false` models `close_connection(c)` raising, in which case
the `remove` is skipped and the entry stays), then create
`max(0, min_size - len(connections))` replacements, each drawn from
`creations` (`none` = `create_connection()` raised, logged and
skipped). -/
def performMaintenance (p : ConnectionPool) (now : ℚ) (health : Nat → Option Bool)
    (closeOk : Nat → Bool) (creations : List (Option Nat)) : ConnectionPool :=
  let flagged := p.connections.map (maintFlag p now health p.connections.length)
  let survivors :=
    (flagged.filter (fun x => !(x.2 && closeOk x.1.connection))).map Prod.fst
  let need := p.minSize - survivors.length
  let created :=
    ((creations.take need).filterMap id).map (fun c => mkPooledConnection c .idle now)
  { p with connections := survivors ++ created }

theorem keyLE_total (a b : QItem) : keyLE a b = true ∨ keyLE b a = true := by
  simp only [keyLE, Bool.or_eq_true, Bool.and_eq_true, decide_eq_true_eq, beq_iff_eq]
  rcases lt_trichotomy a.priority b.priority with h | h | h
  · exact Or.inl (Or.inl h)
  · rcases le_total a.enqueueTime b.enqueueTime with h2 | h2
    · exact Or.inl (Or.inr ⟨h, h2⟩)
    · exact Or.inr (Or.inr ⟨h.symm, h2⟩)
  · exact Or.inr (Or.inl h)

theorem keyLE_trans {a b c : QItem} (h1 : keyLE a b = true) (h2 : keyLE b c = true) :
    keyLE a c = true := by
  simp only [keyLE, Bool.or_eq_true, Bool.and_eq_true, decide_eq_true_eq, beq_iff_eq] at h1 h2 ⊢
  rcases h1 with h1 | ⟨h1e, h1t⟩ <;> rcases h2 with h2 | ⟨h2e, h2t⟩
  · exact Or.inl (h1.trans h2)
  · exact Or.inl (h2e ▸ h1)
  · exact Or.inl (h1e ▸ h2)
  · exact Or.inr ⟨h1e.trans h2e, h1t.trans h2t⟩

theorem mem_queueInsert {x y : QItem} :
    ∀ {l : List QItem}, y ∈ queueInsert x l → y = x ∨ y ∈ l := by
  intro l
  induction l with
  | nil => simp [queueInsert]
  | cons z zs ih =>
    simp only [queueInsert]
    split
    · intro h
      rcases List.mem_cons.mp h with h | h
      · exact Or.inr (h ▸ List.mem_cons_self z zs)
      · rcases ih h with h | h
        · exact Or.inl h
        · exact Or.inr (List.mem_cons_of_mem z h)
    · intro h
      rcases List.mem_cons.mp h with h | h
      · exact Or.inl h
      · exact Or.inr h

theorem queueInsert_pairwise {x : QItem} :
    ∀ {l : List QItem}, l.Pairwise (fun a b => keyLE a b = true) →
      (queueInsert x l).Pairwise (fun a b => keyLE a b = true) := by
  intro l
  induction l with
  | nil => intro _; simp [queueInsert]
  | cons z zs ih =>
    intro h
    rw [List.pairwise_cons] at h
    by_cases hz : keyLE z x = true
    · simp only [queueInsert, if_pos hz]
      rw [List.pairwise_cons]
      refine ⟨?_, ih h.2⟩
      intro y hy
      rcases mem_queueInsert hy with rfl | hy
      · exact hz
      · exact h.1 y hy
    · simp only [queueInsert, if_neg hz]
      rw [List.pairwise_cons]
      have hx : keyLE x z = true := (keyLE_total x z).resolve_right hz
      refine ⟨?_, List.pairwise_cons.mpr h⟩
      intro y hy
      rcases List.mem_cons.mp hy with rfl | hy
      · exact hx
      · exact keyLE_trans hx (h.1 y hy)

theorem checkRateLimit_snd (st : RQState) (now : ℚ) :
    (checkRateLimit st now).2 =
      { st with requestTimes := st.requestTimes.filter (fun t => now - st.ratePeriod < t) } := by
  unfold checkRateLimit
  rcases st.burstLimit with _ | b <;> dsimp only <;> split_ifs <;> rfl

/-- C1: the specification, the handler comments and the repository's own
test `test_process_request_schema_not_found` all expect a
`SchemaNotFoundError` raised inside a handler to propagate out of
`process_request` unchanged, but the outer `except Exception` arm of
`process_request` re-raises only `RequestValidationError` and
`QueueFullError` unchanged and wraps everything else — including the
`SchemaNotFoundError` that `_handle_generate_response` deliberately
re-raised — as `RequestProcessingError`.  Evaluating the embedded code at
the failing input: a generate-response handler whose schema lookup raises
`SchemaNotFoundError("Schema not found")` surfaces from `process_request`
as `RequestProcessingError("Error processing request: Schema not found")`,
not as `SchemaNotFoundError`.  A `QueueFullError`, by contrast, does pass
through unchanged. -/
theorem spec_C1_schema_not_found_wrapped_eval :
    processRequestWrap (handleGenerateResponseExc (α := String)
        (.error (.schemaNotFoundError "Schema not found"))) =
      .error (.requestProcessingError "Error processing request: Schema not found") ∧
    processRequestWrap (α := String) (.error (.queueFullError "Rate limit exceeded")) =
      .error (.queueFullError "Rate limit exceeded") :=
  ⟨rfl, rfl⟩

/-- C9: `get_metrics` is total and never divides by zero — the average
divides by `max(1, number of samples)`, which is always positive, and on a
fresh queue with no recorded wait-time samples it reports
`avg_wait_time = 0` and `min_wait_time = 0` (the `float('inf')` sentinel is
replaced by `0`). -/
theorem spec_C9_metrics_empty_safe :
    (∀ (rateLimit ratePeriod : ℚ) (burstLimit : Option Nat) (maxQueueSize : Nat),
        (RQState.init rateLimit ratePeriod burstLimit maxQueueSize).getMetrics.avgWaitTime = 0 ∧
        (RQState.init rateLimit ratePeriod burstLimit maxQueueSize).getMetrics.minWaitTime = 0) ∧
    (∀ st : RQState, (0 : ℚ) < (max 1 st.queueWaitTimes.length : ℚ)) := by
  constructor
  · intro rateLimit ratePeriod burstLimit maxQueueSize
    constructor
    · simp [RQState.init, RQState.getMetrics]
    · rfl
  · intro st
    have h : 1 ≤ max 1 st.queueWaitTimes.length := le_max_left _ _
    exact_mod_cast Nat.lt_of_lt_of_le Nat.zero_lt_one h


theorem checkRateLimit_queue (st : RQState) (now : ℚ) :
    (checkRateLimit st now).2.queue = st.queue := by
  rw [checkRateLimit_snd]

theorem checkRateLimit_requestTimes (st : RQState) (now : ℚ) :
    (checkRateLimit st now).2.requestTimes =
      st.requestTimes.filter (fun t => now - st.ratePeriod < t) := by
  rw [checkRateLimit_snd]

theorem enqueue_accepted_eq (st : RQState) (rd : String) (pri : Int) (rid : Option String)
    (now : ℚ) (h : (st.enqueue rd pri rid now).1 = .accepted) :
    (st.enqueue rd pri rid now).2 =
      { (checkRateLimit st now).2 with
          queue := queueInsert ⟨pri, now, rd, rid⟩ (checkRateLimit st now).2.queue } := by
  unfold RQState.enqueue at h ⊢
  by_cases hfull : st.maxQueueSize ≤ st.queue.length
  · rw [if_pos hfull] at h
    simp at h
  · rw [if_neg hfull] at h ⊢
    rcases hc : checkRateLimit st now with ⟨ok, st1⟩
    simp only [hc] at h ⊢
    cases ok
    · simp at h
    · rfl

/-- C2 counterexample: the heap key is `(priority, enqueue_time)` with
`enqueue_time = time.time()`, a wall-clock read, not a monotonic insertion
sequence number.  Two equal-priority requests enqueued while the wall clock
steps backwards (first at t=2, then at t=1) are both accepted, and the
second-inserted request sits ahead of the first in the queue, so it
dequeues first: equal-priority dequeue order is not FIFO insertion
order. -/
theorem spec_C2_fifo_tiebreak_cex :
    ((((RQState.init 10 60 none 100).enqueue "first" 50 none 2).1 = .accepted) ∧
      ((((RQState.init 10 60 none 100).enqueue "first" 50 none 2).2.enqueue
          "second" 50 none 1).1 = .accepted)) ∧
    ((((RQState.init 10 60 none 100).enqueue "first" 50 none 2).2.enqueue
        "second" 50 none 1).2.queue
      = [⟨50, 1, "second", none⟩, ⟨50, 2, "first", none⟩]) :=
  ⟨⟨by decide, by decide⟩, by decide⟩

/-- C2 (amended): requests dequeue in ascending `(priority, enqueue_time)`
order — lower priority value first; equal priorities are ordered by the
wall-clock enqueue timestamp, which coincides with FIFO insertion order
only while the clock is strictly increasing (there is no insertion
sequence number): (1) `enqueue` keeps the queue sorted by that key, (2)
the item handed to the dequeue loop has a minimal key among all queued
items, and (3) three requests enqueued at Low, High, Normal priority under
an ample rate limit line up High, Normal, Low regardless of enqueue
order. -/
theorem spec_C2_priority_then_timestamp_order :
    (∀ (st : RQState) (rd : String) (pri : Int) (rid : Option String) (now : ℚ),
        st.queue.Pairwise (fun a b => keyLE a b = true) →
        ((st.enqueue rd pri rid now).2.queue.Pairwise (fun a b => keyLE a b = true))) ∧
    (∀ (st : RQState) (now : ℚ) (x : QItem),
        st.queue.Pairwise (fun a b => keyLE a b = true) →
        (st.processOne now).map Prod.fst = some x →
        ∀ y ∈ st.queue, keyLE x y = true) ∧
    (((((RQState.init 10 60 none 100).enqueue "low" 100 none 0).2.enqueue
        "high" 0 none 1).2.enqueue "normal" 50 none 2).2.queue
      = [⟨0, 1, "high", none⟩, ⟨50, 2, "normal", none⟩, ⟨100, 0, "low", none⟩]) := by
  refine ⟨?_, ?_, by decide⟩
  · intro st rd pri rid now h
    unfold RQState.enqueue
    split
    · exact h
    · have hq := checkRateLimit_queue st now
      rcases hc : checkRateLimit st now with ⟨ok, st1⟩
      rw [hc] at hq
      dsimp only at hq
      cases ok
      · exact hq ▸ h
      · exact queueInsert_pairwise (hq ▸ h)
  · intro st now x hp hx
    unfold RQState.processOne at hx
    rcases hq : st.queue with _ | ⟨z, rest⟩
    · rw [hq] at hx
      simp at hx
    · rw [hq] at hx
      simp only [Option.map_some] at hx
      cases hx
      rw [hq] at hp
      rw [List.pairwise_cons] at hp
      intro y hy
      rcases List.mem_cons.mp hy with rfl | hy
      · simp [keyLE]
      · exact hp.1 y hy

/-- C2 witness: on the concrete sorted queue
`[(priority 0, t=1, high), (priority 50, t=2, normal)]` the dequeue loop
hands out the first item, whose key is below the other queued item's
key. -/
theorem spec_C2_priority_then_timestamp_order_witness :
    keyLE ⟨0, 1, "high", none⟩ ⟨50, 2, "normal", none⟩ = true := by
  have h := spec_C2_priority_then_timestamp_order.2.1
    { RQState.init 10 60 none 100 with
        queue := [⟨0, 1, "high", none⟩, ⟨50, 2, "normal", none⟩] }
    3 ⟨0, 1, "high", none⟩ (by decide) rfl
  exact h ⟨50, 2, "normal", none⟩ (by simp)

/-- C3 counterexample: the admission check of `request_queue.py` is not a
token bucket — nothing is consumed at admission time.  With
`rate_limit = 1, rate_period = 10`, two enqueues at t=0 (the first not yet
processed) are both accepted by the code, while the spec's token bucket of
capacity 1 accepts its first check and rejects the second, having consumed
its only token. -/
theorem spec_C3_token_bucket_cex :
    ((((RQState.init 1 10 none 100).enqueue "a" 50 none 0).1 = .accepted) ∧
      ((((RQState.init 1 10 none 100).enqueue "a" 50 none 0).2.enqueue
          "b" 50 none 0).1 = .accepted)) ∧
    (tokenBucketCheck (tokenBucketInit 1 10 none 0) 0).1 = true ∧
    (tokenBucketCheck (tokenBucketCheck (tokenBucketInit 1 10 none 0) 0).2 0).1 = false := by
  refine ⟨⟨by decide, by decide⟩, ?_, ?_⟩ <;>
    norm_num [tokenBucketCheck, tokenBucketInit]

/-- C3 (amended): the admission rate limiter is a sliding-window counter,
not a token bucket: each admission check lazily prunes, from the current
wall-clock time, recorded processing timestamps older than `rate_period`
(never via a background timer), admits exactly when the in-window count is
below `rate_limit` and below `burst_limit` when one is set, and an
accepted enqueue consumes nothing at admission time — the timestamp that
feeds the window is recorded when a request is dequeued for processing. -/
theorem spec_C3_sliding_window_rate_limiter :
    (∀ (st : RQState) (now : ℚ),
        (checkRateLimit st now).2 =
          { st with requestTimes := st.requestTimes.filter (fun t => now - st.ratePeriod < t) }) ∧
    (∀ (st : RQState) (now : ℚ),
        (checkRateLimit st now).1 = true ↔
          (((st.requestTimes.filter (fun t => now - st.ratePeriod < t)).length : ℚ) < st.rateLimit ∧
            ∀ b, st.burstLimit = some b →
              (st.requestTimes.filter (fun t => now - st.ratePeriod < t)).length < b)) ∧
    (∀ (st : RQState) (rd : String) (pri : Int) (rid : Option String) (now : ℚ),
        (st.enqueue rd pri rid now).1 = .accepted →
        (st.enqueue rd pri rid now).2.requestTimes =
          st.requestTimes.filter (fun t => now - st.ratePeriod < t)) ∧
    (∀ (st : RQState) (now : ℚ) (x : QItem),
        (st.processOne now).map Prod.fst = some x →
        (st.processOne now).map (fun r => r.2.requestTimes) =
          some (st.requestTimes ++ [now])) := by
  refine ⟨checkRateLimit_snd, ?_, ?_, ?_⟩
  · intro st now
    unfold checkRateLimit
    rcases hb : st.burstLimit with _ | b <;> dsimp only
    · split_ifs with h1
      · simp only [Bool.false_eq_true, false_iff, not_and]
        intro hlt
        exact absurd h1 (not_le.mpr hlt)
      · refine ⟨fun _ => ⟨lt_of_not_ge h1, by simp⟩, fun _ => rfl⟩
    · split_ifs with h1 h2
      · simp only [Bool.false_eq_true, false_iff, not_and]
        intro hlt
        exact absurd h1 (not_le.mpr hlt)
      · simp only [Bool.false_eq_true, false_iff, not_and]
        intro _ hall
        have := hall b rfl
        omega
      · refine ⟨fun _ => ⟨lt_of_not_ge h1, ?_⟩, fun _ => rfl⟩
        rintro b' hb'
        injection hb' with e
        omega
  · intro st rd pri rid now h
    rw [enqueue_accepted_eq st rd pri rid now h]
    exact checkRateLimit_requestTimes st now
  · intro st now x hx
    unfold RQState.processOne at hx ⊢
    rcases hq : st.queue with _ | ⟨z, rest⟩
    · rw [hq] at hx
      simp at hx
    · simp

/-- C3 witness: an accepted enqueue on a fresh queue leaves the (empty)
window of recorded processing times untouched — nothing is consumed at
admission time. -/
theorem spec_C3_sliding_window_rate_limiter_witness :
    ((RQState.init 10 60 none 100).enqueue "a" 50 none 0).2.requestTimes =
      (RQState.init 10 60 none 100).requestTimes.filter
        (fun t => 0 - (RQState.init 10 60 none 100).ratePeriod < t) :=
  spec_C3_sliding_window_rate_limiter.2.2.1
    (RQState.init 10 60 none 100) "a" 50 none 0 (by decide)

theorem retryLoopAux_all_fail (mr : Nat) (results : Nat → Except Exc String) (e : Exc)
    (he : isRetryableError e = true) (hall : ∀ a, results a = .error e) :
    ∀ (fuel attempt : Nat), mr - attempt = fuel → attempt < mr →
      retryLoopAux mr results attempt =
        (.error e, mr, (List.range (mr - 1 - attempt)).map (fun k => retrySleep (attempt + k + 1))) := by
  intro fuel
  induction fuel with
  | zero =>
    intro attempt h1 h2
    omega
  | succ n ih =>
    intro attempt h1 h2
    rw [retryLoopAux, hall (attempt + 1)]
    dsimp only
    by_cases hlt : attempt + 1 < mr
    · rw [dif_pos ⟨by simp [shouldRetry, he, hlt], hlt⟩]
      rw [ih (attempt + 1) (by omega) hlt]
      have hr : mr - 1 - attempt = (mr - 1 - (attempt + 1)) + 1 := by omega
      rw [hr, List.range_succ_eq_map, List.map_cons, List.map_map]
      simp only [Prod.mk.injEq, List.cons.injEq, true_and]
      apply List.map_congr_left
      intro k _
      simp only [Function.comp_apply]
      congr 1
      omega
    · rw [dif_neg (fun hx => hlt hx.2)]
      have hmr : attempt + 1 = mr := by omega
      have hz : mr - 1 - attempt = 0 := by omega
      simp [hmr, hz]

/-- C4: the specification (section 7: "transient backend errors are
retried transparently by the orchestrator"), the retryable set
`RETRYABLE_ERRORS = {ModelError}` and the backoff sleep in
`_process_request_with_retry` all intend a backend `ModelError` to be
retried `max_retries - 1` additional times — but the backend's `ModelError`
(raised by `model_manager.generate_response`, model_manager.py line 81) is
raised inside `_handle_generate_response`'s `try`, wrapped there as
`RequestProcessingError`, and wrapped again by `process_request`'s
`except Exception`, so the retry loop only ever sees a
non-retryable `RequestProcessingError`.  Evaluating the embedded code at
the failing input (`max_retries = 3`, backend raising
`ModelError("Bedrock invocation failed")` on every attempt): (1) each call
to `process_request` surfaces the double-wrapped `RequestProcessingError`;
(2) the retry loop on those outcomes performs exactly one attempt with no
backoff sleeps; (3) `should_retry` is false on the wrapped error; while
(4) the retry machinery itself is not at fault — fed the raw `ModelError`
the loop would perform 3 attempts with backoff sleeps for attempts 1 and
2, exactly as the claim describes.  (The repository's own retry test,
test_server.py line 311, can only exercise a retry by mocking
`should_retry` to return `True`.) -/
theorem spec_C4_backend_error_not_retried_eval :
    (processRequestWrap (handleGenerateResponseExc (α := String)
        (.error (.modelError "Bedrock invocation failed"))) =
      .error (.requestProcessingError
        ("Error processing request: " ++
          "Error handling generate_response request: Bedrock invocation failed"))) ∧
    (processRequestWithRetry 3 (fun _ =>
        processRequestWrap (handleGenerateResponseExc (α := String)
          (.error (.modelError "Bedrock invocation failed")))) =
      (.error (.requestProcessingError
        ("Error processing request: " ++
          "Error handling generate_response request: Bedrock invocation failed")),
        1, [])) ∧
    (shouldRetry 3 (.requestProcessingError
        ("Error processing request: " ++
          "Error handling generate_response request: Bedrock invocation failed")) 1 = false) ∧
    (processRequestWithRetry 3 (fun _ => .error (.modelError "Bedrock invocation failed")) =
      (.error (.modelError "Bedrock invocation failed"), 3, [retrySleep 1, retrySleep 2])) := by
  refine ⟨rfl, ?_, rfl, ?_⟩
  · unfold processRequestWithRetry
    rw [retryLoopAux]
    dsimp only
    have hw : processRequestWrap (handleGenerateResponseExc (α := String)
        (.error (.modelError "Bedrock invocation failed"))) =
      .error (.requestProcessingError
        ("Error processing request: " ++
          "Error handling generate_response request: Bedrock invocation failed")) := rfl
    rw [hw]
    dsimp only
    rw [dif_neg (by simp [shouldRetry, isRetryableError])]
  · have h := retryLoopAux_all_fail 3
      (fun _ => .error (.modelError "Bedrock invocation failed"))
      (.modelError "Bedrock invocation failed") rfl (fun a => rfl) 3 0 (by omega) (by omega)
    unfold processRequestWithRetry
    rw [h]
    rfl

/-- C5: whenever `enqueue` is called with the current queue length at or
above `max_queue_size`, it raises `QueueFullError` immediately and the
whole queue state — in particular the priority queue itself — is left
unchanged; with `max_queue_size = 2` and two requests pending, a third
enqueue raises `QueueFullError`, and after one pending request is dequeued
by the processing loop a new enqueue is accepted. -/
theorem spec_C5_backpressure :
    (∀ (st : RQState) (rd : String) (pri : Int) (rid : Option String) (now : ℚ),
        st.maxQueueSize ≤ st.queue.length →
        st.enqueue rd pri rid now =
          (.queueFull ("Request queue is full (" ++ toString st.queue.length ++ " items)"), st)) ∧
    ((((RQState.init 10 60 none 2).enqueue "r1" 50 none 0).1 = .accepted) ∧
      ((((RQState.init 10 60 none 2).enqueue "r1" 50 none 0).2.enqueue "r2" 50 none 0).1
        = .accepted) ∧
      (((((RQState.init 10 60 none 2).enqueue "r1" 50 none 0).2.enqueue
          "r2" 50 none 0).2.enqueue "r3" 50 none 0).1
        = .queueFull "Request queue is full (2 items)") ∧
      (((((RQState.init 10 60 none 2).enqueue "r1" 50 none 0).2.enqueue
          "r2" 50 none 0).2.processOne 1).map (fun r => (r.2.enqueue "r4" 50 none 1).1)
        = some .accepted)) := by
  constructor
  · intro st rd pri rid now h
    unfold RQState.enqueue
    rw [if_pos h]
  · refine ⟨by decide, by decide, by decide, ?_⟩
    norm_num [RQState.init, RQState.enqueue, checkRateLimit, RQState.processOne,
      queueInsert, keyLE]

/-- C5 witness: a queue with `max_queue_size = 0` rejects any enqueue with
`QueueFullError` and is left unchanged. -/
theorem spec_C5_backpressure_witness :
    (RQState.init 10 60 none 0).enqueue "r" 50 none 0 =
      (.queueFull "Request queue is full (0 items)", RQState.init 10 60 none 0) :=
  spec_C5_backpressure.1 (RQState.init 10 60 none 0) "r" 50 none 0 (by decide)

/-- C8: for every exception and optional request id, `handle_error` returns
the envelope `{status: "error", error: {code, message}}` where `code` and
`message` come from classification, the `details` key is present exactly
when classification produced details, and the `request_id` key is present
only when a request id was supplied (Python truthiness also drops an empty
string id).  Being a total function of the embedded exception type, every
failure is reported in this single envelope shape, never as a raw
exception. -/
theorem spec_C8_error_envelope_shape :
    ∀ (e : Exc) (rid : Option String),
      (handleError e rid).status = "error" ∧
      (handleError e rid).error.code = (classifyError e).code ∧
      (handleError e rid).error.message = (classifyError e).message ∧
      ((handleError e rid).error.details.isSome ↔ (classifyError e).details.isSome) ∧
      ((handleError e rid).error.requestId.isSome → rid.isSome) := by
  intro e rid
  refine ⟨rfl, rfl, rfl, Iff.rfl, ?_⟩
  cases rid with
  | none => simp [handleError]
  | some r => intro _; rfl

/-- C8 witness: the envelope for a schema-validation error with a supplied
request id carries the classified code and message, has details, and its
request id came from the caller. -/
theorem spec_C8_error_envelope_shape_witness :
    (handleError (.schemaValidationError "bad data" (some ["age is required"]))
        (some "req-1")).status = "error" ∧
    (handleError (.schemaValidationError "bad data" (some ["age is required"]))
        (some "req-1")).error.code = "schema_validation_error" ∧
    ((handleError (.schemaValidationError "bad data" (some ["age is required"]))
        (some "req-1")).error.requestId.isSome → (some "req-1" : Option String).isSome) := by
  have h := spec_C8_error_envelope_shape
    (.schemaValidationError "bad data" (some ["age is required"])) (some "req-1")
  exact ⟨h.1, h.2.1, h.2.2.2.2⟩

theorem releaseConns_not_mem (c : Nat) (now : ℚ) :
    ∀ conns : List PooledConnection,
      (∀ pc ∈ conns, pc.connection ≠ c) → releaseConns conns c now = conns := by
  intro conns
  induction conns with
  | nil => intro _; rfl
  | cons pc rest ih =>
    intro h
    unfold releaseConns
    rw [if_neg (h pc (List.mem_cons_self pc rest))]
    rw [ih (fun x hx => h x (List.mem_cons_of_mem pc hx))]

/-- C10: releasing a connection object that no pool entry wraps leaves the
pool completely unchanged — no entry's status or `last_used_at` moves and
the connection list is not mutated; the call is a logged no-op, not an
error. -/
theorem spec_C10_release_untracked_noop :
    ∀ (p : ConnectionPool) (c : Nat) (now : ℚ),
      (∀ pc ∈ p.connections, pc.connection ≠ c) →
      releasePool p c now = p := by
  intro p c now h
  unfold releasePool
  rw [releaseConns_not_mem c now p.connections h]

/-- C10 witness: releasing untracked connection 2 against a pool tracking
only connection 1 returns the pool unchanged. -/
theorem spec_C10_release_untracked_noop_witness :
    releasePool ⟨[mkPooledConnection 1 .busy 5], 1, 10, 300, 60, 3⟩ 2 7 =
      ⟨[mkPooledConnection 1 .busy 5], 1, 10, 300, 60, 3⟩ :=
  spec_C10_release_untracked_noop ⟨[mkPooledConnection 1 .busy 5], 1, 10, 300, 60, 3⟩ 2 7
    (by decide)

theorem acquireFromIdle_props :
    ∀ (conns : List PooledConnection) (now : ℚ) (c : Nat) (conns1 : List PooledConnection),
      acquireFromIdle conns now = some (c, conns1) →
      conns1.length = conns.length ∧
      (∃ pc ∈ conns, pc.connection = c ∧ pc.status = .idle) ∧
      (∃ pc1 ∈ conns1, pc1.connection = c ∧ pc1.status = .busy) := by
  intro conns
  induction conns with
  | nil =>
    intro now c conns1 h
    simp [acquireFromIdle] at h
  | cons pc rest ih =>
    intro now c conns1 h
    unfold acquireFromIdle at h
    by_cases hs : pc.status = .idle
    · rw [if_pos hs] at h
      simp only [Option.some.injEq, Prod.mk.injEq] at h
      obtain ⟨hc, hl⟩ := h
      subst hc
      subst hl
      refine ⟨by simp, ⟨pc, List.mem_cons_self pc rest, rfl, hs⟩, ?_⟩
      exact ⟨_, List.mem_cons_self _ rest, rfl, rfl⟩
    · rw [if_neg hs] at h
      cases hm : acquireFromIdle rest now with
      | none =>
        rw [hm] at h
        simp at h
      | some pr =>
        rcases pr with ⟨c2, rest1⟩
        rw [hm] at h
        simp only [Option.some.injEq, Prod.mk.injEq] at h
        obtain ⟨hc, hl⟩ := h
        subst hc
        subst hl
        obtain ⟨ihl, ⟨pc2, hpc2, hcc, hst⟩, ⟨pc3, hpc3, hcc3, hst3⟩⟩ := ih now c2 rest1 hm
        refine ⟨by simp [ihl], ⟨pc2, List.mem_cons_of_mem pc hpc2, hcc, hst⟩,
          ⟨pc3, List.mem_cons_of_mem pc hpc3, hcc3, hst3⟩⟩

theorem acquireFromIdle_none :
    ∀ (conns : List PooledConnection) (now : ℚ),
      acquireFromIdle conns now = none → ∀ pc ∈ conns, pc.status ≠ .idle := by
  intro conns
  induction conns with
  | nil =>
    intro now h pc hpc
    simp at hpc
  | cons pc0 rest ih =>
    intro now h pc hpc
    unfold acquireFromIdle at h
    by_cases hs : pc0.status = .idle
    · rw [if_pos hs] at h
      simp at h
    · rw [if_neg hs] at h
      rcases List.mem_cons.mp hpc with rfl | hpc
      · exact hs
      · cases hm : acquireFromIdle rest now with
        | none => exact ih now hm pc hpc
        | some pr =>
          rw [hm] at h
          rcases pr with ⟨c2, rest1⟩
          simp at h

theorem releaseConns_length (c : Nat) (now : ℚ) :
    ∀ conns : List PooledConnection, (releaseConns conns c now).length = conns.length := by
  intro conns
  induction conns with
  | nil => rfl
  | cons pc rest ih =>
    unfold releaseConns
    split
    · simp
    · simp [ih]

theorem markUnhealthyConns_length (c : Nat) :
    ∀ conns : List PooledConnection, (markUnhealthyConns conns c).length = conns.length := by
  intro conns
  induction conns with
  | nil => rfl
  | cons pc rest ih =>
    unfold markUnhealthyConns
    split
    · simp
    · simp [ih]

theorem maint_len_helper (a b total minS maxS : Nat) (h1 : a ≤ total) (h2 : total ≤ maxS)
    (h3 : minS ≤ maxS) (h4 : b ≤ minS - a) : a + b ≤ maxS := by omega

theorem c6_start (p : ConnectionPool) (creations : List (Option Nat)) (now : ℚ)
    (h0 : p.connections = []) (hlen : creations.length = p.minSize)
    (hmm : p.minSize ≤ p.maxSize) :
    (startPool p creations now).connections.length ≤ p.maxSize := by
  unfold startPool
  simp only [h0, List.nil_append, List.length_map]
  calc (creations.filterMap id).length
      ≤ creations.length := List.length_filterMap_le _ _
    _ = p.minSize := hlen
    _ ≤ p.maxSize := hmm

theorem c6_acquire_len (p : ConnectionPool) (now : ℚ) (create : Option Nat)
    (h : p.connections.length ≤ p.maxSize) :
    (acquireStep p now create).2.connections.length ≤ p.maxSize := by
  unfold acquireStep
  cases hm : acquireFromIdle p.connections now with
  | some pr =>
    rcases pr with ⟨c, conns1⟩
    dsimp only
    have hl := (acquireFromIdle_props p.connections now c conns1 hm).1
    rw [hl]
    exact h
  | none =>
    dsimp only
    split
    · cases create with
      | none => exact h
      | some c2 =>
        rename_i hlt
        simp only [List.length_append, List.length_cons, List.length_nil]
        omega
    · exact h

theorem c6_maintenance_len (p : ConnectionPool) (now : ℚ) (health : Nat → Option Bool)
    (closeOk : Nat → Bool) (creations : List (Option Nat))
    (hmm : p.minSize ≤ p.maxSize) (h : p.connections.length ≤ p.maxSize) :
    (performMaintenance p now health closeOk creations).connections.length ≤ p.maxSize := by
  unfold performMaintenance
  simp only [List.length_append, List.length_map]
  refine maint_len_helper _ _ p.connections.length p.minSize p.maxSize ?_ h hmm ?_
  · exact le_trans (List.length_filter_le _ _) (le_of_eq (List.length_map _ _))
  · exact le_trans (List.length_filterMap_le _ _)
      (le_trans (le_of_eq (List.length_take _ _)) (min_le_left _ _))

theorem c6_acquired (p : ConnectionPool) (now : ℚ) (create : Option Nat) (c : Nat)
    (p1 : ConnectionPool) (h : acquireStep p now create = (.acquired c, p1)) :
    ((∃ pc ∈ p.connections, pc.connection = c ∧ pc.status = .idle) ∨
      (create = some c ∧ ∀ pc ∈ p.connections, pc.status ≠ .idle)) ∧
    (∃ pc1 ∈ p1.connections, pc1.connection = c ∧ pc1.status = .busy) := by
  unfold acquireStep at h
  cases hm : acquireFromIdle p.connections now with
  | some pr =>
    rcases pr with ⟨c2, conns1⟩
    rw [hm] at h
    simp only [Prod.mk.injEq, AcquireResult.acquired.injEq] at h
    obtain ⟨hc, hp⟩ := h
    subst hc
    subst hp
    obtain ⟨-, hidle, hbusy⟩ := acquireFromIdle_props p.connections now c2 conns1 hm
    exact ⟨Or.inl hidle, hbusy⟩
  | none =>
    rw [hm] at h
    dsimp only at h
    split at h
    · cases create with
      | none => simp at h
      | some c2 =>
        simp only [Prod.mk.injEq, AcquireResult.acquired.injEq] at h
        obtain ⟨hc, hp⟩ := h
        subst hc
        subst hp
        refine ⟨Or.inr ⟨rfl, acquireFromIdle_none p.connections now hm⟩, ?_⟩
        refine ⟨mkPooledConnection c2 .busy now, ?_, rfl, rfl⟩
        exact List.mem_append_right _ (List.mem_singleton.mpr rfl)
    · simp at h

/-- C6 counterexample: nothing in `connection_pool.py` validates
`min_size ≤ max_size`, and both `start` and the maintenance top-up create
`min_size` connections without consulting `max_size`: a pool constructed
with `min_size = 3, max_size = 2` holds 3 connections right after
`start`, violating the unconditional claim that the total never exceeds
`max_size`. -/
theorem spec_C6_pool_size_cex :
    (startPool ⟨[], 3, 2, 300, 60, 3⟩ [some 0, some 1, some 2] 0).connections.length = 3 ∧
    ¬ (startPool ⟨[], 3, 2, 300, 60, 3⟩ [some 0, some 1, some 2] 0).connections.length
        ≤ (⟨[], 3, 2, 300, 60, 3⟩ : ConnectionPool).maxSize :=
  ⟨by decide, by decide⟩

/-- C6 (amended): provided `min_size ≤ max_size` (which the constructor
does not enforce), the tracked-connection count never exceeds `max_size`:
`start` on an empty pool stays within the bound, one pass of `acquire`
preserves it (new connections are only created below `max_size`), a
maintenance pass preserves it (the top-up reaches at most `min_size`), and
`release` / `mark_unhealthy` never change the count.  Moreover `acquire`
never hands out a connection that was Busy: an acquired connection was
either Idle in the pre-state or freshly created when no Idle connection
existed, and its pool entry is marked Busy in the post-state before being
handed out. -/
theorem spec_C6_pool_invariants :
    (∀ (p : ConnectionPool) (creations : List (Option Nat)) (now : ℚ),
        p.connections = [] → creations.length = p.minSize → p.minSize ≤ p.maxSize →
        (startPool p creations now).connections.length ≤ p.maxSize) ∧
    (∀ (p : ConnectionPool) (now : ℚ) (create : Option Nat),
        p.connections.length ≤ p.maxSize →
        (acquireStep p now create).2.connections.length ≤ p.maxSize) ∧
    (∀ (p : ConnectionPool) (now : ℚ) (health : Nat → Option Bool)
        (closeOk : Nat → Bool) (creations : List (Option Nat)),
        p.minSize ≤ p.maxSize → p.connections.length ≤ p.maxSize →
        (performMaintenance p now health closeOk creations).connections.length ≤ p.maxSize) ∧
    (∀ (p : ConnectionPool) (c : Nat) (now : ℚ),
        (releasePool p c now).connections.length = p.connections.length) ∧
    (∀ (p : ConnectionPool) (c : Nat),
        (markUnhealthyPool p c).connections.length = p.connections.length) ∧
    (∀ (p : ConnectionPool) (now : ℚ) (create : Option Nat) (c : Nat) (p1 : ConnectionPool),
        acquireStep p now create = (.acquired c, p1) →
        ((∃ pc ∈ p.connections, pc.connection = c ∧ pc.status = .idle) ∨
          (create = some c ∧ ∀ pc ∈ p.connections, pc.status ≠ .idle)) ∧
        (∃ pc1 ∈ p1.connections, pc1.connection = c ∧ pc1.status = .busy)) := by
  refine ⟨c6_start, c6_acquire_len, c6_maintenance_len, ?_, ?_, c6_acquired⟩
  · intro p c now
    unfold releasePool
    exact releaseConns_length c now p.connections
  · intro p c
    unfold markUnhealthyPool
    exact markUnhealthyConns_length c p.connections

/-- C6 witness: on a well-configured empty pool (`min_size = 1 ≤ max_size
= 10`), one acquire pass keeps the connection count within `max_size`. -/
theorem spec_C6_pool_invariants_witness :
    (acquireStep ⟨[], 1, 10, 300, 60, 3⟩ 0 (some 5)).2.connections.length ≤
      (⟨[], 1, 10, 300, 60, 3⟩ : ConnectionPool).maxSize :=
  spec_C6_pool_invariants.2.1 ⟨[], 1, 10, 300, 60, 3⟩ 0 (some 5) (by decide)

theorem take_append_len (A B : List Nat) : (A ++ B).take A.length = A := by simp

theorem drop_append_len (A B : List Nat) : (A ++ B).drop A.length = B := by simp

theorem natRepr_digit (n : Nat) : ∀ b ∈ natRepr n, 48 ≤ b ∧ b ≤ 57 := by
  intro b hb
  unfold natRepr at hb
  split at hb
  · simp at hb
    omega
  · rw [List.mem_reverse, List.mem_map] at hb
    obtain ⟨d, hd, rfl⟩ := hb
    have := Nat.digits_lt_base (by norm_num) hd
    omega

theorem natRepr_ne_nil (n : Nat) : natRepr n ≠ [] := by
  unfold natRepr
  split
  · simp
  · rename_i hn
    simp [Nat.digits_ne_nil_iff_ne_zero.mpr hn]

theorem parseNatAux_append (l1 l2 : List Nat) :
    ∀ acc, parseNatAux (l1 ++ l2) acc =
      match parseNatAux l1 acc with
      | some a => parseNatAux l2 a
      | none => none := by
  induction l1 with
  | nil => intro acc; rfl
  | cons b rest ih =>
    intro acc
    simp only [List.cons_append, parseNatAux]
    split_ifs with hb
    · exact ih _
    · rfl

theorem parseNatAux_digits :
    ∀ (L : List Nat), (∀ d ∈ L, d < 10) →
      ∀ acc, parseNatAux ((L.map (· + 48)).reverse) acc =
        some (acc * 10 ^ L.length + Nat.ofDigits 10 L) := by
  intro L
  induction L with
  | nil => intro _ acc; simp [parseNatAux, Nat.ofDigits]
  | cons d rest ih =>
    intro h acc
    have hd : d < 10 := h d (List.mem_cons_self d rest)
    simp only [List.map_cons, List.reverse_cons]
    rw [parseNatAux_append]
    rw [ih (fun x hx => h x (List.mem_cons_of_mem d hx)) acc]
    simp only [parseNatAux]
    rw [if_pos (by omega)]
    simp only [parseNatAux, Option.some.injEq, Nat.add_sub_cancel, List.length_cons,
      pow_succ, Nat.ofDigits_cons]
    ring

theorem parseNatBytes_natRepr (n : Nat) : parseNatBytes (natRepr n) = some n := by
  unfold parseNatBytes
  rw [if_neg (by simp [natRepr_ne_nil n])]
  unfold natRepr
  split
  · rename_i hn
    subst hn
    rfl
  · rename_i hn
    rw [parseNatAux_digits (Nat.digits 10 n) (fun d hd => Nat.digits_lt_base (by norm_num) hd) 0]
    simp [Nat.ofDigits_digits]

theorem readLine_append (B : List Nat) :
    ∀ A : List Nat, 10 ∉ A → readLine (A ++ 10 :: B) = (A ++ [10], B) := by
  intro A
  induction A with
  | nil => intro _; simp [readLine]
  | cons a rest ih =>
    intro h
    have ha : a ≠ 10 := fun he => h (he ▸ List.mem_cons_self a rest)
    simp only [List.cons_append, readLine, if_neg ha]
    simp [ih (fun hm => h (List.mem_cons_of_mem a hm))]

theorem byteStrip_header (n : Nat) :
    byteStrip (clHeaderBytes ++ natRepr n ++ [13, 10]) = clHeaderBytes ++ natRepr n := by
  unfold byteStrip
  have h1 : List.dropWhile isPySpace (clHeaderBytes ++ natRepr n ++ [13, 10]) =
      clHeaderBytes ++ natRepr n ++ [13, 10] := by
    have hform : clHeaderBytes ++ natRepr n ++ [13, 10]
        = 67 :: ([111, 110, 116, 101, 110, 116, 45, 76, 101, 110, 103, 116, 104, 58, 32]
            ++ natRepr n ++ [13, 10]) := by
      simp [clHeaderBytes]
    rw [hform, List.dropWhile_cons, if_neg (by decide)]
  rw [h1]
  have h2 : (clHeaderBytes ++ natRepr n ++ [13, 10]).reverse
      = 10 :: 13 :: ((natRepr n).reverse ++ clHeaderBytes.reverse) := by
    simp
  rw [h2, List.dropWhile_cons, if_pos (by decide), List.dropWhile_cons, if_pos (by decide)]
  obtain ⟨r, R, hR⟩ := List.exists_cons_of_ne_nil (l := (natRepr n).reverse) (by simp [natRepr_ne_nil n])
  have hr : ¬ isPySpace r = true := by
    have hmem : r ∈ natRepr n := by
      rw [← List.mem_reverse, hR]
      exact List.mem_cons_self r R
    have hd := natRepr_digit n r hmem
    simp only [isPySpace, Bool.or_eq_true, decide_eq_true_eq, not_or]
    omega
  rw [hR, List.cons_append, List.dropWhile_cons, if_neg hr, ← List.cons_append, ← hR]
  simp

theorem readMessage_writeMessage (p rest : List Nat) :
    readMessage (writeMessage p ++ rest) = (.message p, rest) := by
  have hA : (10 : Nat) ∉ clHeaderBytes ++ natRepr p.length ++ [13] := by
    intro hm
    rcases List.mem_append.mp hm with hm | hm
    · rcases List.mem_append.mp hm with hm | hm
      · revert hm; decide
      · have := natRepr_digit _ _ hm; omega
    · simp at hm
  have hstream : writeMessage p ++ rest
      = (clHeaderBytes ++ natRepr p.length ++ [13]) ++ 10 :: (13 :: 10 :: (p ++ rest)) := by
    simp [writeMessage]
  have e1 : readLine (writeMessage p ++ rest)
      = ((clHeaderBytes ++ natRepr p.length ++ [13]) ++ [10], 13 :: 10 :: (p ++ rest)) := by
    rw [hstream]
    exact readLine_append _ _ hA
  have e2 : byteStrip ((clHeaderBytes ++ natRepr p.length ++ [13]) ++ [10])
      = clHeaderBytes ++ natRepr p.length := by
    have hform : (clHeaderBytes ++ natRepr p.length ++ [13]) ++ [10]
        = clHeaderBytes ++ natRepr p.length ++ [13, 10] := by simp
    rw [hform, byteStrip_header]
  have h16 : clHeaderBytes.length = 16 := rfl
  have e3 : (clHeaderBytes ++ natRepr p.length).take 16 = clHeaderBytes := by
    rw [← h16, take_append_len]
  have e4 : (clHeaderBytes ++ natRepr p.length).drop 16 = natRepr p.length := by
    rw [← h16, drop_append_len]
  have e5 : readLine (13 :: 10 :: (p ++ rest)) = ([13, 10], p ++ rest) := by
    simp [readLine]
  have e6 : readExactly p.length (p ++ rest) = some (p, rest) := by
    unfold readExactly
    rw [if_pos (by simp)]
    rw [take_append_len, drop_append_len]
  unfold readMessage
  rw [e1]
  dsimp only
  rw [if_neg (by simp)]
  rw [e2, if_pos e3, e4, parseNatBytes_natRepr]
  dsimp only
  rw [e5]
  dsimp only
  rw [if_pos (by decide)]
  rw [e6]

/-- C7 counterexample: a truncated stream — a complete
`Content-Length: 5` header and blank separator followed by only 2 of the
announced 5 payload bytes — makes `_read_message` return `None` (the
`IncompleteReadError` arm, modelled as `eof`), the normal stream-closure
signal, not an `MCPProtocolError` as the claim states. -/
theorem spec_C7_truncated_eof_cex :
    readMessage (clHeaderBytes ++ [53] ++ [13, 10, 13, 10] ++ [97, 98]) = (.eof, [97, 98]) := by
  decide

/-- C7 (amended): framing a payload with the Content-Length writer and
parsing it back with the reader reproduces the payload bytes exactly — and
hence the JSON structure they encode — for every payload and every
trailing stream content; a present but non-blank separator line yields an
`MCPProtocolError`, as does a malformed header; but truncated input (the
stream ending mid-message) yields the end-of-stream signal (`None`), not a
protocol error — in no case a crash. -/
theorem spec_C7_framing_round_trip :
    (∀ (payload rest : List Nat),
        readMessage (writeMessage payload ++ rest) = (.message payload, rest)) ∧
    (readMessage (clHeaderBytes ++ [53, 13, 10] ++ [97, 98, 99, 100, 101]) =
      (.protocolError "Expected empty line after header", [])) ∧
    (readMessage [67, 111, 110, 116] = (.protocolError "Invalid header", [])) :=
  ⟨readMessage_writeMessage, by decide, by decide⟩
